import Mathlib

set_option maxHeartbeats 1000000

/-!
Shallow embedding of the worker process manager in
`horde_worker_regen/process_management/process_manager.py`.

Pure data is translated directly; the asynchronous loops become explicit
state-transforming functions.  Python exceptions are modelled by returning
the state reached so far together with `some errorMessage` (Python mutates
the manager in place, so mutations performed before a `raise` persist).
Messages sent to child processes and HTTP traffic are external effects: the
responses the network would give are passed in as explicit arguments.
-/

/-- Kind of a child worker process (`HordeProcessKind` lives in
`inference_process.py`, outside the provided sources; the spec lists
INFERENCE, SAFETY and DOWNLOAD). -/
inductive HordeProcessKind where
  | INFERENCE
  | SAFETY
  | DOWNLOAD
deriving DecidableEq

/-- Modelled from the spec: the process state machine of section 4.1.  The
enum itself is declared in `messages.py`, which is not part of the provided
sources; the names used by `process_manager.py` (PROCESS_STARTING,
PROCESS_ENDED, INFERENCE_STARTING) are kept. -/
inductive HordeProcessState where
  | PROCESS_STARTING
  | WAITING_FOR_JOB
  | PRELOADING_MODEL
  | PRELOADED_MODEL
  | INFERENCE_STARTING
  | INFERENCE_RUNNING
  | INFERENCE_COMPLETE
  | EVALUATING_SAFETY
  | UNLOADING_MODELS
  | PROCESS_ENDING
  | PROCESS_ENDED
deriving DecidableEq

/-- Modelled from the spec: `can_accept_job` is true only in WAITING_FOR_JOB
or PRELOADED (section 4.1); the method body is in `messages.py`, outside the
provided sources. -/
def HordeProcessState.can_accept_job : HordeProcessState → Bool
  | .WAITING_FOR_JOB => true
  | .PRELOADED_MODEL => true
  | _ => false

/-- Model residency states (`ModelLoadState` in `messages.py`). -/
inductive ModelLoadState where
  | ON_DISK
  | LOADING
  | LOADED_IN_RAM
  | LOADED_IN_VRAM
deriving DecidableEq

/-- Modelled from the spec: a model is loaded when resident in RAM or VRAM
(section 3.2); the method body is in `messages.py`, outside the provided
sources. -/
def ModelLoadState.is_loaded : ModelLoadState → Bool
  | .LOADED_IN_RAM => true
  | .LOADED_IN_VRAM => true
  | _ => false

/-- Generation states used for completed jobs (`GENERATION_STATE` from
horde_sdk; the manager uses `csam` and `censored` plus whatever state the
inference worker reported). -/
inductive GENERATION_STATE where
  | ok
  | censored
  | csam
  | faulted
deriving DecidableEq

/-- The slice of `ImageGenerateJobPopResponse.payload` the manager reads. -/
structure JobPayload where
  seed : Option Int
  prompt : Option String
  loras : Option (List String)
  tiling : Option Bool
  use_nsfw_censor : Bool
deriving DecidableEq

/-- The slice of `ImageGenerateJobPopResponse` the manager reads (a job
descriptor). -/
structure Job where
  id_ : Option String
  model : Option String
  payload : JobPayload
  r2_upload : Option String
deriving DecidableEq

/-- `CompletedJobInfo` from process_manager.py. -/
structure CompletedJobInfo where
  job_info : Job
  job_result_images_base64 : Option (List String)
  state : GENERATION_STATE
  censored : Option Bool
deriving DecidableEq

/-- `HordeProcessInfo` from process_manager.py (the live process handle and
pipe are external resources and carry no observable state). -/
structure HordeProcessInfo where
  process_id : Nat
  process_type : HordeProcessKind
  last_process_state : HordeProcessState
  loaded_horde_model_name : Option String
  ram_usage_bytes : Nat
  vram_usage_bytes : Nat
  total_vram_bytes : Nat
deriving DecidableEq

def HordeProcessInfo.is_process_busy (p : HordeProcessInfo) : Bool :=
  !p.last_process_state.can_accept_job

def HordeProcessInfo.can_accept_job (p : HordeProcessInfo) : Bool :=
  p.last_process_state.can_accept_job

/-- `ModelInfo` entry of the horde model map (`messages.py`). -/
structure ModelInfo where
  horde_model_name : String
  horde_model_load_state : ModelLoadState
  process_id : Nat
deriving DecidableEq

/-- One per-image evaluation inside a `HordeSafetyResultMessage`. -/
structure SafetyEvaluation where
  is_nsfw : Bool
  is_csam : Bool
  replacement_image_base64 : Option String
deriving DecidableEq

/-- The slice of `FindUserResponse` the manager stores. -/
structure FindUserResponse where
  kudos : Int
deriving DecidableEq

/-- `ProcessMap` is a Python dict keyed by process id, iterated in insertion
order; modelled as a list of entries (ids are unique in practice; lookups
take the first match, exactly as a dict would behave). -/
abbrev ProcessMap := List HordeProcessInfo

/-- `HordeModelMap` is a Python dict keyed by model name, iterated in
insertion order; modelled as a list of entries. -/
abbrev HordeModelMap := List ModelInfo

def pmContains (pm : ProcessMap) (pid : Nat) : Bool :=
  pm.any (fun p => p.process_id == pid)

/-- `ProcessMap.update_entry`: every keyword argument is optional and a
`None` argument leaves the corresponding field untouched (so passing
`loaded_horde_model_name=None` does NOT clear the field). -/
def pmUpdate (pm : ProcessMap) (pid : Nat)
    (last_process_state : Option HordeProcessState)
    (loaded_horde_model_name : Option String)
    (ram_usage_bytes vram_usage_bytes total_vram_bytes : Option Nat) :
    ProcessMap :=
  pm.map fun p =>
    if p.process_id == pid then
      { p with
        last_process_state := last_process_state.getD p.last_process_state
        loaded_horde_model_name :=
          match loaded_horde_model_name with
          | some n => some n
          | none => p.loaded_horde_model_name
        ram_usage_bytes := ram_usage_bytes.getD p.ram_usage_bytes
        vram_usage_bytes := vram_usage_bytes.getD p.vram_usage_bytes
        total_vram_bytes := total_vram_bytes.getD p.total_vram_bytes }
    else p

def numInferenceProcesses (pm : ProcessMap) : Nat :=
  (pm.filter (fun p => p.process_type == HordeProcessKind.INFERENCE)).length

def numAvailableInferenceProcesses (pm : ProcessMap) : Nat :=
  (pm.filter (fun p =>
    p.process_type == HordeProcessKind.INFERENCE && !p.is_process_busy)).length

def numSafetyProcesses (pm : ProcessMap) : Nat :=
  (pm.filter (fun p => p.process_type == HordeProcessKind.SAFETY)).length

def getFirstAvailableInferenceProcess (pm : ProcessMap) : Option HordeProcessInfo :=
  pm.find? (fun p =>
    p.process_type == HordeProcessKind.INFERENCE && p.can_accept_job)

def getFirstAvailableSafetyProcess (pm : ProcessMap) : Option HordeProcessInfo :=
  pm.find? (fun p =>
    p.process_type == HordeProcessKind.SAFETY && p.can_accept_job)

def getProcessByHordeModelName (pm : ProcessMap) (name : String) :
    Option HordeProcessInfo :=
  pm.find? (fun p => p.loaded_horde_model_name == some name)

/-- `HordeModelMap.update_entry`.  Every call site in process_manager.py
passes both a load state and a process id, so the missing-argument
`ValueError` branches for a new entry can never fire and are omitted.  A new
entry is appended (dict insertion order). -/
def update_model_entry (mm : HordeModelMap) (name : String)
    (load_state : ModelLoadState) (process_id : Nat) : HordeModelMap :=
  if mm.any (fun mi => mi.horde_model_name == name) then
    mm.map fun mi =>
      if mi.horde_model_name == name then
        { mi with horde_model_load_state := load_state, process_id := process_id }
      else mi
  else
    mm ++ [{ horde_model_name := name
             horde_model_load_state := load_state
             process_id := process_id }]

def is_model_loaded (mm : HordeModelMap) (name : String) : Bool :=
  match mm.find? (fun mi => mi.horde_model_name == name) with
  | none => false
  | some mi => mi.horde_model_load_state.is_loaded

def is_model_loading (mm : HordeModelMap) (name : String) : Bool :=
  match mm.find? (fun mi => mi.horde_model_name == name) with
  | none => false
  | some mi => mi.horde_model_load_state == ModelLoadState.LOADING

/-- The observable state of `HordeWorkerProcessManager`.  Configuration
fields come from the constructor / bridge data; all time-stamps are integer
seconds (the constants compared against are the integers 1, 5 and 10000). -/
structure ManagerState where
  queue_size : Nat
  max_concurrent_inference_processes : Nat
  max_inference_processes : Nat
  max_safety_processes : Nat
  nsfw : Bool
  total_ram_bytes : Nat
  target_ram_overhead_bytes : Nat
  process_map : ProcessMap
  horde_model_map : HordeModelMap
  jobs_in_progress : List Job
  jobs_pending_safety_check : List CompletedJobInfo
  jobs_being_safety_checked : List CompletedJobInfo
  completed_jobs : List CompletedJobInfo
  job_deque : List Job
  total_num_completed_jobs : Nat
  stable_diffusion_reference : List (String × String)
  user_info : Option FindUserResponse
  user_info_failed : Bool
  user_info_failed_reason : Option String
  last_get_user_info_time : Int
  testing_jobs_added : Nat
  job_pop_frequency : Int
  last_job_pop_time : Int
deriving DecidableEq

def targetRamBytesUsed (s : ManagerState) : Int :=
  (s.total_ram_bytes : Int) - (s.target_ram_overhead_bytes : Int)

def getProcessTotalRamUsage (pm : ProcessMap) : Nat :=
  (pm.map (fun p => p.ram_usage_bytes)).sum

/-- Messages children put on the shared inbound queue (`messages.py`). -/
inductive HordeProcessMessage where
  | stateChange (process_id : Nat) (process_state : HordeProcessState)
      (info : Option String)
  | modelStateChange (process_id : Nat) (horde_model_name : String)
      (horde_model_state : ModelLoadState)
  | memory (process_id : Nat)
      (ram_usage_bytes vram_usage_bytes vram_total_bytes : Nat)
  | inferenceResult (process_id : Nat) (job_info : Job)
      (job_result_images_base64 : Option (List String))
      (state : GENERATION_STATE)
  | safetyResult (process_id : Nat) (job_id : String)
      (safety_evaluations : List SafetyEvaluation)
deriving DecidableEq

def HordeProcessMessage.process_id : HordeProcessMessage → Nat
  | .stateChange pid _ _ => pid
  | .modelStateChange pid _ _ => pid
  | .memory pid _ _ _ => pid
  | .inferenceResult pid _ _ _ => pid
  | .safetyResult pid _ _ => pid

/-- Scan `jobs_being_safety_checked` for the first record whose job id
matches, returning it and the list with it removed (the `for i, job in
enumerate ... pop(i)` loop). -/
def popFirstById : List CompletedJobInfo → String →
    Option (CompletedJobInfo × List CompletedJobInfo)
  | [], _ => none
  | c :: rest, jid =>
    if c.job_info.id_ == some jid then some (c, rest)
    else
      match popFirstById rest jid with
      | none => none
      | some (f, r) => some (f, c :: r)

/-- The per-image substitution loop of the SafetyResult branch: for each
image index, read the evaluation at the same index (IndexError - modelled as
`none` - when there are fewer evaluations than images); a present
replacement is substituted and counted, and `is_csam` is only consulted for
images that had a replacement.  Returns the new image list, the censored
count, and the csam count. -/
def applySafetyEvals : List String → List SafetyEvaluation →
    Option (List String × Nat × Nat)
  | [], _ => some ([], 0, 0)
  | _ :: _, [] => none
  | img :: imgs, ev :: evs =>
    match applySafetyEvals imgs evs with
    | none => none
    | some (rest, nc, ncs) =>
      match ev.replacement_image_base64 with
      | none => some (img :: rest, nc, ncs)
      | some rep =>
        some (rep :: rest, nc + 1, if ev.is_csam then ncs + 1 else ncs)

/-- One iteration of `receive_and_handle_process_messages` for a single
message.  Returns the state after the iteration together with `some error`
when the Python code would raise (unknown process id; popleft from an empty
deque; safety result for an unknown job or with mismatched evaluation
arity).  Mutations made before the raise are kept, as in Python. -/
def handle_message (s : ManagerState) (m : HordeProcessMessage) :
    ManagerState × Option String :=
  if !pmContains s.process_map m.process_id then
    (s, some "Received a message from an unknown process")
  else
    match m with
    | .stateChange pid st _ =>
      ({ s with process_map := pmUpdate s.process_map pid (some st) none none none none },
       none)
    | .modelStateChange pid name mstate =>
      let s1 := { s with
        horde_model_map := update_model_entry s.horde_model_map name mstate pid }
      if mstate == ModelLoadState.LOADED_IN_VRAM
          || mstate == ModelLoadState.LOADED_IN_RAM then
        ({ s1 with
           process_map := pmUpdate s1.process_map pid none (some name) none none none },
         none)
      else
        -- ON_DISK passes loaded_horde_model_name=None to update_entry,
        -- which therefore changes nothing; LOADING touches no process entry
        (s1, none)
    | .memory pid ram vram vtot =>
      ({ s with
         process_map := pmUpdate s.process_map pid none none (some ram) (some vram) (some vtot) },
       none)
    | .inferenceResult _ job imgs st =>
      match imgs with
      | none => (s, none)  -- logged and skipped with `continue`
      | some imgs =>
        let s1 := { s with
          jobs_in_progress := s.jobs_in_progress.filter (fun j => !(j.id_ == job.id_)) }
        match s1.job_deque with
        | [] => (s1, some "IndexError: pop from an empty deque")
        | _ :: restDeque =>
          ({ s1 with
             job_deque := restDeque
             total_num_completed_jobs := s1.total_num_completed_jobs + 1
             jobs_pending_safety_check := s1.jobs_pending_safety_check ++
               [{ job_info := job
                  job_result_images_base64 := some imgs
                  state := st
                  censored := none }] },
           none)
    | .safetyResult _ jid evals =>
      match popFirstById s.jobs_being_safety_checked jid with
      | none => (s, some "Expected to find a completed job but none was found")
      | some (cji, remaining) =>
        let s1 := { s with jobs_being_safety_checked := remaining }
        match cji.job_result_images_base64 with
        | none => (s1, some "Expected to find a completed job but none was found")
        | some imgs =>
          match applySafetyEvals imgs evals with
          | none => (s1, some "IndexError: list index out of range")
          | some (newImgs, nc, ncs) =>
            let cjiOut :=
              if nc > 0 then
                { cji with
                  job_result_images_base64 := some newImgs
                  censored := some true
                  state := if ncs > 0 then GENERATION_STATE.csam
                           else GENERATION_STATE.censored }
              else
                { cji with
                  job_result_images_base64 := some newImgs
                  censored := some false }
            ({ s1 with completed_jobs := s1.completed_jobs ++ [cjiOut] }, none)

/-- The drain loop of `receive_and_handle_process_messages` over the
messages present in the inbound queue: handle them left to right; an
exception raised by one message propagates immediately, so the messages
after it are not handled. -/
def receive_and_handle_process_messages (s : ManagerState) :
    List HordeProcessMessage → ManagerState × Option String
  | [] => (s, none)
  | m :: rest =>
    match handle_message s m with
    | (s1, none) => receive_and_handle_process_messages s1 rest
    | (s1, some e) => (s1, some e)

/-- `preload_models`, as a structural recursion over the deque with the
running count of already loaded/loading models.  The sent `PreloadModel`
control message is an external effect; the state effect is marking the model
LOADING owned by the chosen process and setting that process's
`loaded_horde_model_name`.  At most one preload is dispatched per call. -/
def preload_models_aux (s : ManagerState) :
    List Job → Nat → ManagerState × Option String
  | [], _ => (s, none)
  | job :: rest, count =>
    match job.model with
    | none => (s, some "job.model is None")
    | some model =>
      if is_model_loaded s.horde_model_map model
          || is_model_loading s.horde_model_map model then
        preload_models_aux s rest (count + 1)
      else if count ≥ numInferenceProcesses s.process_map then
        (s, none)
      else
        match getFirstAvailableInferenceProcess s.process_map with
        | none => (s, none)
        | some p =>
          ({ s with
             horde_model_map :=
               update_model_entry s.horde_model_map model ModelLoadState.LOADING p.process_id
             process_map :=
               pmUpdate s.process_map p.process_id none (some model) none none none },
           none)

def preload_models (s : ManagerState) : ManagerState × Option String :=
  preload_models_aux s s.job_deque 0

/-- `start_inference`.  The `UnloadFromVRAM` and `StartInference` control
messages are external effects; the state effect is appending the chosen job
to `jobs_in_progress`, guarded by the concurrency limit. -/
def start_inference (s : ManagerState) : ManagerState × Option String :=
  if s.jobs_in_progress.length ≥ s.max_concurrent_inference_processes then
    (s, none)
  else
    match s.job_deque.find? (fun j => !(s.jobs_in_progress.contains j)) with
    | none => (s, none)
    | some next_job =>
      match next_job.model with
      | none => (s, some "next_job.model is None")
      | some model =>
        if is_model_loaded s.horde_model_map model then
          match getProcessByHordeModelName s.process_map model with
          | none => (s, none)  -- logged error, return
          | some p =>
            if !p.can_accept_job then (s, none)
            else
              ({ s with jobs_in_progress := s.jobs_in_progress ++ [next_job] },
               none)
        else (s, none)

/-- `unload_from_ram`.  Sends `UnloadFromRAM` (external), flips the model to
ON_DISK in the model map, and then calls
`update_entry(process_id, loaded_horde_model_name=None)` - which, because a
`None` keyword argument means "leave unchanged", does not actually clear the
process entry's `loaded_horde_model_name`. -/
def unload_from_ram (s : ManagerState) (process_id : Nat) :
    ManagerState × Option String :=
  match s.process_map.find? (fun p => p.process_id == process_id) with
  | none => (s, some "process_id is not in the process map")
  | some p =>
    match p.loaded_horde_model_name with
    | none => (s, some "process is not loaded with a model")
    | some model =>
      if !is_model_loaded s.horde_model_map model then
        (s, some "process is loaded with a model that is not loaded")
      else
        ({ s with
           horde_model_map :=
             update_model_entry s.horde_model_map model ModelLoadState.ON_DISK process_id
           process_map :=
             pmUpdate s.process_map process_id none none none none none },
         none)

/-- The `while len(next_n_models) < max_concurrent ...` set-building loop of
`unload_models`; the set is a deduplicated list. -/
def collectNextNModels (limit : Nat) :
    List Job → List String → Option (List String)
  | [], acc => some acc
  | job :: rest, acc =>
    if acc.length ≥ limit then some acc
    else
      match job.model with
      | none => none  -- ValueError: job model is None
      | some m =>
        collectNextNModels limit rest (if acc.contains m then acc else acc ++ [m])

/-- `unload_models`: iterate over the processes (by id, in map order; Python
iterates the dict's values while only mutating fields of entries), skipping
busy processes, processes without a resident model, and models still
loading; a resident model among the next `max_concurrent` deque models is
kept; otherwise, if total reported RAM use exceeds the budget, the model is
unloaded from RAM. -/
def unload_models_aux :
    List Nat → ManagerState → ManagerState × Option String
  | [], s => (s, none)
  | pid :: rest, s =>
    match s.process_map.find? (fun p => p.process_id == pid) with
    | none => unload_models_aux rest s
    | some p =>
      if p.is_process_busy then unload_models_aux rest s
      else
        match p.loaded_horde_model_name with
        | none => unload_models_aux rest s
        | some model =>
          if is_model_loading s.horde_model_map model then
            unload_models_aux rest s
          else
            match collectNextNModels s.max_concurrent_inference_processes s.job_deque [] with
            | none => (s, some "job model is None")
            | some nextModels =>
              if nextModels.contains model then unload_models_aux rest s
              else if (getProcessTotalRamUsage s.process_map : Int) > targetRamBytesUsed s then
                match unload_from_ram s pid with
                | (s1, none) => unload_models_aux rest s1
                | (s1, some e) => (s1, some e)
              else unload_models_aux rest s

def unload_models (s : ManagerState) : ManagerState × Option String :=
  unload_models_aux (s.process_map.map (fun p => p.process_id)) s

/-- `start_evaluate_safety`.  The `EvaluateSafety` control message is an
external effect; the state effect is moving the head record from
`jobs_pending_safety_check` to `jobs_being_safety_checked`.  The model
reference lookup (`stable_diffusion_reference.root[model]`) happens in the
send expression, after the move, so a missing reference (KeyError) leaves
the record already moved. -/
def start_evaluate_safety (s : ManagerState) : ManagerState × Option String :=
  match s.jobs_pending_safety_check with
  | [] => (s, none)
  | cji :: restPending =>
    match getFirstAvailableSafetyProcess s.process_map with
    | none => (s, none)
    | some _ =>
      match cji.job_result_images_base64 with
      | none => (s, some "job_result_images_base64 is None")
      | some imgs =>
        if imgs.length > 1 then
          (s, some "NotImplementedError: only single image jobs are supported")
        else
          match cji.job_info.id_ with
          | none => (s, some "job_info.id_ is None")
          | some _ =>
            match cji.job_info.model with
            | none => (s, some "job_info.model is None")
            | some model =>
              match cji.job_info.payload.prompt with
              | none => (s, some "payload.prompt is None")
              | some _ =>
                let s1 := { s with
                  jobs_pending_safety_check := restPending
                  jobs_being_safety_checked := s.jobs_being_safety_checked ++ [cji] }
                match s.stable_diffusion_reference.find? (fun r => r.1 == model) with
                | none => (s1, some "KeyError: model not in reference")
                | some _ => (s1, none)

/-- Outcome of the job submit HTTP request (external). -/
inductive SubmitOutcome where
  | success (reward : Int)
  | requestError
  | exception
deriving DecidableEq

/-- `api_submit_job`.  `uploadOutcome` is the result of the image re-encode
plus HTTP PUT: `none` when an exception was raised inside the `try` block
(caught and logged), `some status` for a completed PUT.  `submitOutcome` is
the result the submit request would have.  Validation failures before the
`try` raise out of the coroutine (swallowed by `asyncio.gather` with
`return_exceptions=True`), leaving the state unchanged. -/
def api_submit_job (s : ManagerState) (uploadOutcome : Option Nat)
    (submitOutcome : SubmitOutcome) : ManagerState × Option String :=
  match s.completed_jobs with
  | [] => (s, none)
  | cji :: _ =>
    match cji.job_result_images_base64 with
    | none => (s, some "job_result_images_base64 is None")
    | some imgs =>
      if imgs.length > 1 then
        (s, some "NotImplementedError: only single image jobs are supported")
      else
        match cji.job_info.id_ with
        | none => (s, some "job_info.id_ is None")
        | some _ =>
          match cji.job_info.payload.seed with
          | none => (s, some "payload.seed is None")
          | some _ =>
            match cji.job_info.r2_upload with
            | none => (s, some "r2_upload is None")
            | some _ =>
              match cji.censored with
              | none => (s, some "censored is None")
              | some _ =>
                match uploadOutcome with
                | none => (s, none)  -- exception caught and logged
                | some status =>
                  if status ≠ 200 then (s, none)  -- logged, record kept
                  else
                    match submitOutcome with
                    | .requestError => (s, none)  -- logged, record kept
                    | .exception => (s, none)  -- caught and logged
                    | .success _ =>
                      ({ s with completed_jobs := s.completed_jobs.erase cji },
                       none)

/-- Hard-coded job-pop constants of the source. -/
def testing_max_jobs : Nat := 10000

def default_job_pop_frequency : Int := 1

def error_job_pop_frequency : Int := 5

/-- Outcome of the job-pop HTTP request (external). -/
inductive PopOutcome where
  | errorResponse
  | exception
  | noJob
  | newJob (j : Job)
deriving DecidableEq

/-- `api_job_pop`; `now` is the value of `time.time()`.  The returned Bool
records whether a pop request was actually issued (false when one of the
three early-return guards fired). -/
def api_job_pop (s : ManagerState) (now : Int) (outcome : PopOutcome) :
    ManagerState × Bool :=
  if s.job_deque.length ≥ s.queue_size + 1 then (s, false)
  else if s.testing_jobs_added ≥ testing_max_jobs then (s, false)
  else if now - s.last_job_pop_time < s.job_pop_frequency then (s, false)
  else
    let s1 := { s with last_job_pop_time := now }
    match outcome with
    | .errorResponse =>
      ({ s1 with job_pop_frequency := error_job_pop_frequency }, true)
    | .exception =>
      ({ s1 with job_pop_frequency := error_job_pop_frequency }, true)
    | .noJob =>
      ({ s1 with job_pop_frequency := default_job_pop_frequency }, true)
    | .newJob j =>
      ({ s1 with
         job_pop_frequency := default_job_pop_frequency
         job_deque := s1.job_deque ++ [j]
         testing_jobs_added := s1.testing_jobs_added + 1 },
       true)

/-- Outcome of the find-user HTTP request (external).  `clientError` and
`exception` carry the exception type name and message used to build the
failure reason string. -/
inductive UserInfoOutcome where
  | success (resp : FindUserResponse)
  | requestError
  | clientError (typeName msg : String)
  | exception (typeName msg : String)
deriving DecidableEq

/-- `api_get_user_info`.  Note that the RequestErrorResponse branch sets the
failed flag but never touches `user_info_failed_reason`. -/
def api_get_user_info (s : ManagerState) (outcome : UserInfoOutcome) :
    ManagerState :=
  match outcome with
  | .success r =>
    { s with
      user_info := some r
      user_info_failed := false
      user_info_failed_reason := none }
  | .requestError => { s with user_info_failed := true }
  | .clientError tn msg =>
    { s with
      user_info_failed := true
      user_info_failed_reason := some ("HTTP error ((" ++ tn ++ ") " ++ msg ++ ")") }
  | .exception tn msg =>
    { s with
      user_info_failed := true
      user_info_failed_reason := some ("Unexpected error ((" ++ tn ++ ") " ++ msg ++ ")") }

def api_get_user_info_interval : Int := 5

/-- One iteration of `_api_call_loop`.  The returned Bool records whether
the 5-second failure sleep ran at the top of the tick.  The user-info
refresh guard only updates `_last_get_user_info_time`: the call that would
append `api_get_user_info` to the task list is commented out in the source,
so no fetch ever happens.  The pop and submit tasks are gathered on one
event loop and touch disjoint state, modelled as sequential composition. -/
def api_call_loop_tick (s : ManagerState) (now : Int) (popOutcome : PopOutcome)
    (uploadOutcome : Option Nat) (submitOutcome : SubmitOutcome) :
    ManagerState × Bool :=
  let slept := s.user_info_failed
  let s1 :=
    if s.last_get_user_info_time + api_get_user_info_interval < now then
      { s with last_get_user_info_time := now }
    else s
  let s2 := (api_job_pop s1 now popOutcome).1
  let s3 := (api_submit_job s2 uploadOutcome submitOutcome).1
  (s3, slept)

/-- `is_time_for_shutdown`. -/
def is_time_for_shutdown (s : ManagerState) : Bool :=
  !(s.jobs_in_progress.length > 0)
  && !(s.job_deque.length > 0)
  && !(s.process_map.any (fun p => p.is_process_busy))
  && !(s.process_map.any
        (fun p => !(p.last_process_state == HordeProcessState.PROCESS_ENDED)))

/-- The spawn loops of `start_safety_processes` / `start_inference_processes`:
each new process takes pid `len(process_map)` and enters the map in
PROCESS_STARTING with no resident model. -/
def newProcessEntry (pid : Nat) (kind : HordeProcessKind) : HordeProcessInfo :=
  { process_id := pid
    process_type := kind
    last_process_state := HordeProcessState.PROCESS_STARTING
    loaded_horde_model_name := none
    ram_usage_bytes := 0
    vram_usage_bytes := 0
    total_vram_bytes := 0 }

def spawnProcesses (s : ManagerState) (kind : HordeProcessKind) :
    Nat → ManagerState
  | 0 => s
  | n + 1 =>
    let s1 := { s with
      process_map := s.process_map ++ [newProcessEntry s.process_map.length kind] }
    spawnProcesses s1 kind n

def start_safety_processes (s : ManagerState) : ManagerState × Option String :=
  if numSafetyProcesses s.process_map > s.max_safety_processes then
    (s, some "num_processes_to_start cannot be less than 0")
  else
    (spawnProcesses s HordeProcessKind.SAFETY
      (s.max_safety_processes - numSafetyProcesses s.process_map), none)

def start_inference_processes (s : ManagerState) : ManagerState × Option String :=
  if numInferenceProcesses s.process_map > s.max_inference_processes then
    (s, some "num_processes_to_start cannot be less than 0")
  else
    (spawnProcesses s HordeProcessKind.INFERENCE
      (s.max_inference_processes - numInferenceProcesses s.process_map), none)

/-- `end_inference_processes`: only sends `EndProcess` control messages (the
`update_entry(process_id=...)` call passes no other argument and so changes
nothing); the state is returned unchanged, with the errors the code can
raise. -/
def end_inference_processes (s : ManagerState) : ManagerState × Option String :=
  let cnt := numInferenceProcesses s.process_map
  let n : Int :=
    if is_time_for_shutdown s then (cnt : Int)
    else (cnt : Int) - (s.max_inference_processes : Int)
  if n < 0 then (s, some "num_processes_to_end cannot be less than 0")
  else if n > 0 && (getFirstAvailableInferenceProcess s.process_map).isNone then
    (s, some "Expected to find a process to end, but found none")
  else (s, none)

/-- One orchestrator step: any single operation the two loops can perform,
with the external inputs (child messages, HTTP outcomes, clock readings)
chosen arbitrarily. -/
inductive Step : ManagerState → ManagerState → Prop where
  | handleMessages (s : ManagerState) (msgs : List HordeProcessMessage) :
      Step s (receive_and_handle_process_messages s msgs).1
  | preload (s : ManagerState) : Step s (preload_models s).1
  | startInference (s : ManagerState) : Step s (start_inference s).1
  | unloadFromRam (s : ManagerState) (pid : Nat) :
      Step s (unload_from_ram s pid).1
  | unloadModels (s : ManagerState) : Step s (unload_models s).1
  | startEvaluateSafety (s : ManagerState) :
      Step s (start_evaluate_safety s).1
  | submitJob (s : ManagerState) (u : Option Nat) (o : SubmitOutcome) :
      Step s (api_submit_job s u o).1
  | jobPop (s : ManagerState) (now : Int) (o : PopOutcome) :
      Step s (api_job_pop s now o).1
  | getUserInfo (s : ManagerState) (o : UserInfoOutcome) :
      Step s (api_get_user_info s o)
  | apiTick (s : ManagerState) (now : Int) (p : PopOutcome)
      (u : Option Nat) (o : SubmitOutcome) :
      Step s (api_call_loop_tick s now p u o).1
  | startSafetyProcs (s : ManagerState) : Step s (start_safety_processes s).1
  | startInferenceProcs (s : ManagerState) :
      Step s (start_inference_processes s).1
  | endInferenceProcs (s : ManagerState) :
      Step s (end_inference_processes s).1

/-- Reachability: the reflexive-transitive closure of single orchestrator
steps. -/
def Reachable : ManagerState → ManagerState → Prop :=
  Relation.ReflTransGen Step

/-! ### Frame lemmas: which fields each operation can touch -/

/-- Configuration fields: no operation writes them. -/
def cfgOf (s : ManagerState) :
    Nat × Nat × Nat × Nat × Bool × Nat × Nat × List (String × String) :=
  (s.queue_size, s.max_concurrent_inference_processes, s.max_inference_processes,
   s.max_safety_processes, s.nsfw, s.total_ram_bytes, s.target_ram_overhead_bytes,
   s.stable_diffusion_reference)

/-- Job-pop bookkeeping fields. -/
def popFieldsOf (s : ManagerState) : Nat × Int × Int :=
  (s.testing_jobs_added, s.job_pop_frequency, s.last_job_pop_time)

/-- User-info fields. -/
def userFieldsOf (s : ManagerState) :
    Option FindUserResponse × Bool × Option String :=
  (s.user_info, s.user_info_failed, s.user_info_failed_reason)

/-- The resident-model view of the process map: each process id paired with
its `loaded_horde_model_name`. -/
def loadedProj (pm : ProcessMap) : List (Nat × Option String) :=
  pm.map fun p => (p.process_id, p.loaded_horde_model_name)

lemma handle_message_effects (s : ManagerState) (m : HordeProcessMessage) :
    cfgOf (handle_message s m).1 = cfgOf s ∧
    popFieldsOf (handle_message s m).1 = popFieldsOf s ∧
    userFieldsOf (handle_message s m).1 = userFieldsOf s ∧
    (handle_message s m).1.last_get_user_info_time = s.last_get_user_info_time ∧
    (handle_message s m).1.jobs_in_progress.length ≤ s.jobs_in_progress.length ∧
    (handle_message s m).1.max_concurrent_inference_processes
      = s.max_concurrent_inference_processes := by
  unfold handle_message
  cases m <;> (repeat' split) <;>
    simp_all [cfgOf, popFieldsOf, userFieldsOf, List.length_filter_le] <;>
    (repeat' split) <;>
    simp_all [List.length_filter_le]

lemma receive_effects (s : ManagerState) (msgs : List HordeProcessMessage) :
    cfgOf (receive_and_handle_process_messages s msgs).1 = cfgOf s ∧
    popFieldsOf (receive_and_handle_process_messages s msgs).1 = popFieldsOf s ∧
    userFieldsOf (receive_and_handle_process_messages s msgs).1 = userFieldsOf s ∧
    (receive_and_handle_process_messages s msgs).1.last_get_user_info_time
      = s.last_get_user_info_time ∧
    (receive_and_handle_process_messages s msgs).1.jobs_in_progress.length
      ≤ s.jobs_in_progress.length ∧
    (receive_and_handle_process_messages s msgs).1.max_concurrent_inference_processes
      = s.max_concurrent_inference_processes := by
  induction msgs generalizing s with
  | nil => simp [receive_and_handle_process_messages]
  | cons m rest ih =>
    have h := handle_message_effects s m
    unfold receive_and_handle_process_messages
    cases hm : handle_message s m with
    | mk s1 err =>
      cases err with
      | none =>
        have h2 := ih s1
        rw [hm] at h
        simp only at h h2
        exact ⟨h2.1.trans h.1, h2.2.1.trans h.2.1, h2.2.2.1.trans h.2.2.1,
          h2.2.2.2.1.trans h.2.2.2.1, h2.2.2.2.2.1.trans h.2.2.2.2.1,
          h2.2.2.2.2.2.trans h.2.2.2.2.2⟩
      | some e => rw [hm] at h; simpa using h

lemma preload_aux_effects (s : ManagerState) (jobs : List Job) (count : Nat) :
    (preload_models_aux s jobs count).1 = s ∨
    ∃ model pid,
      (preload_models_aux s jobs count).1 =
        { s with
          horde_model_map :=
            update_model_entry s.horde_model_map model ModelLoadState.LOADING pid
          process_map := pmUpdate s.process_map pid none (some model) none none none } := by
  induction jobs generalizing count with
  | nil => left; rfl
  | cons job rest ih =>
    unfold preload_models_aux
    split
    · left; rfl
    · split
      · exact ih (count + 1)
      · split
        · left; rfl
        · split
          · left; rfl
          · right; exact ⟨_, _, rfl⟩

lemma start_inference_spec (s : ManagerState) :
    (start_inference s).1 = s ∨
    ∃ j, (start_inference s).1 =
        { s with jobs_in_progress := s.jobs_in_progress ++ [j] } ∧
      s.jobs_in_progress.length < s.max_concurrent_inference_processes := by
  unfold start_inference
  split
  · left; rfl
  · split
    · left; rfl
    · split
      · left; rfl
      · split
        · split
          · left; rfl
          · split
            · left; rfl
            · right; exact ⟨_, rfl, by omega⟩
        · left; rfl

lemma unload_from_ram_effects (s : ManagerState) (pid : Nat) :
    (unload_from_ram s pid).1 = s ∨
    ∃ model owner,
      (unload_from_ram s pid).1 =
        { s with
          horde_model_map :=
            update_model_entry s.horde_model_map model ModelLoadState.ON_DISK owner
          process_map := pmUpdate s.process_map pid none none none none none } := by
  unfold unload_from_ram
  split
  · left; rfl
  · split
    · left; rfl
    · split
      · left; rfl
      · right; exact ⟨_, _, rfl⟩

lemma pmUpdate_none_id (pm : ProcessMap) (pid : Nat) :
    pmUpdate pm pid none none none none none = pm := by
  unfold pmUpdate
  induction pm with
  | nil => rfl
  | cons p rest ih =>
    simp only [List.map_cons, List.cons.injEq]
    exact ⟨by split <;> rfl, ih⟩

lemma unload_from_ram_model_map_only (s : ManagerState) (pid : Nat) :
    ∃ mm, (unload_from_ram s pid).1 = { s with horde_model_map := mm } := by
  rcases unload_from_ram_effects s pid with h | ⟨model, owner, h⟩
  · exact ⟨s.horde_model_map, by rw [h]⟩
  · refine ⟨update_model_entry s.horde_model_map model ModelLoadState.ON_DISK owner, ?_⟩
    rw [h, pmUpdate_none_id]

lemma unload_models_aux_effects (pids : List Nat) (s : ManagerState) :
    ∃ mm, (unload_models_aux pids s).1 = { s with horde_model_map := mm } := by
  induction pids generalizing s with
  | nil => exact ⟨s.horde_model_map, rfl⟩
  | cons pid rest ih =>
    unfold unload_models_aux
    split
    · exact ih s
    · split
      · exact ih s
      · split
        · exact ih s
        · split
          · exact ih s
          · split
            · exact ⟨s.horde_model_map, rfl⟩
            · split
              · exact ih s
              · split
                · obtain ⟨mm1, h1⟩ := unload_from_ram_model_map_only s pid
                  cases hur : unload_from_ram s pid with
                  | mk s1 err =>
                    rw [hur] at h1
                    have h1a : s1 = { s with horde_model_map := mm1 } := h1
                    cases err with
                    | none =>
                      obtain ⟨mm2, h2⟩ := ih s1
                      exact ⟨mm2, by rw [h2, h1a]⟩
                    | some e => exact ⟨mm1, by rw [h1a]⟩
                · exact ih s

lemma unload_models_effects (s : ManagerState) :
    ∃ mm, (unload_models s).1 = { s with horde_model_map := mm } :=
  unload_models_aux_effects _ s

lemma start_evaluate_safety_effects (s : ManagerState) :
    (start_evaluate_safety s).1 = s ∨
    ∃ cji rest, s.jobs_pending_safety_check = cji :: rest ∧
      (start_evaluate_safety s).1 =
        { s with
          jobs_pending_safety_check := rest
          jobs_being_safety_checked := s.jobs_being_safety_checked ++ [cji] } := by
  unfold start_evaluate_safety
  split
  · left; rfl
  next cji restPending heq =>
    split
    · left; rfl
    · split
      · left; rfl
      · split
        · left; rfl
        · split
          · left; rfl
          · split
            · left; rfl
            · split
              · left; rfl
              · split <;> exact Or.inr ⟨cji, restPending, heq, rfl⟩

lemma api_submit_job_effects (s : ManagerState) (u : Option Nat)
    (o : SubmitOutcome) :
    (api_submit_job s u o).1 = s ∨
    ∃ cji rest, s.completed_jobs = cji :: rest ∧
      (api_submit_job s u o).1 = { s with completed_jobs := rest } := by
  unfold api_submit_job
  split
  · left; rfl
  next cji rest heq =>
    (repeat' split) <;>
      first
        | (left; rfl)
        | (right
           exact ⟨cji, rest, heq, by rw [heq, List.erase_cons_head]⟩)

lemma api_job_pop_effects (s : ManagerState) (now : Int) (o : PopOutcome) :
    ∃ t f d n,
      (api_job_pop s now o).1 =
        { s with
          last_job_pop_time := t
          job_pop_frequency := f
          job_deque := d
          testing_jobs_added := n } ∧
      s.testing_jobs_added ≤ n := by
  unfold api_job_pop
  split
  · exact ⟨_, _, _, _, rfl, le_refl _⟩
  · split
    · exact ⟨_, _, _, _, rfl, le_refl _⟩
    · split
      · exact ⟨_, _, _, _, rfl, le_refl _⟩
      · cases o
        · exact ⟨_, _, _, _, rfl, le_refl _⟩
        · exact ⟨_, _, _, _, rfl, le_refl _⟩
        · exact ⟨_, _, _, _, rfl, le_refl _⟩
        · exact ⟨_, _, _, _, rfl, Nat.le_succ _⟩

lemma api_get_user_info_effects (s : ManagerState) (o : UserInfoOutcome) :
    ∃ ui fl r,
      api_get_user_info s o =
        { s with
          user_info := ui
          user_info_failed := fl
          user_info_failed_reason := r } := by
  cases o <;> exact ⟨_, _, _, rfl⟩

lemma spawnProcesses_effects (s : ManagerState) (kind : HordeProcessKind)
    (n : Nat) :
    ∃ extra,
      spawnProcesses s kind n = { s with process_map := s.process_map ++ extra } ∧
      ∀ p ∈ extra, p.loaded_horde_model_name = none := by
  induction n generalizing s with
  | zero => exact ⟨[], by simp [spawnProcesses], by simp⟩
  | succ k ih =>
    unfold spawnProcesses
    dsimp only
    obtain ⟨e2, h2, hload⟩ :=
      ih { s with
        process_map := s.process_map ++ [newProcessEntry s.process_map.length kind] }
    rw [h2]
    refine ⟨[newProcessEntry s.process_map.length kind] ++ e2, ?_, ?_⟩
    · simp
    · intro p hp
      rcases List.mem_append.1 hp with hp | hp
      · simp at hp; rw [hp]; rfl
      · exact hload p hp

lemma start_safety_processes_effects (s : ManagerState) :
    ∃ extra,
      (start_safety_processes s).1 =
        { s with process_map := s.process_map ++ extra } ∧
      ∀ p ∈ extra, p.loaded_horde_model_name = none := by
  unfold start_safety_processes
  split
  · exact ⟨[], by simp, by simp⟩
  · exact spawnProcesses_effects s _ _

lemma start_inference_processes_effects (s : ManagerState) :
    ∃ extra,
      (start_inference_processes s).1 =
        { s with process_map := s.process_map ++ extra } ∧
      ∀ p ∈ extra, p.loaded_horde_model_name = none := by
  unfold start_inference_processes
  split
  · exact ⟨[], by simp, by simp⟩
  · exact spawnProcesses_effects s _ _

lemma end_inference_processes_id (s : ManagerState) :
    (end_inference_processes s).1 = s := by
  unfold end_inference_processes
  dsimp only
  (repeat' split) <;> rfl

lemma api_call_loop_tick_effects (s : ManagerState) (now : Int) (p : PopOutcome)
    (u : Option Nat) (o : SubmitOutcome) :
    ∃ t1 t f d n c,
      (api_call_loop_tick s now p u o).1 =
        { s with
          last_get_user_info_time := t1
          last_job_pop_time := t
          job_pop_frequency := f
          job_deque := d
          testing_jobs_added := n
          completed_jobs := c } ∧
      s.testing_jobs_added ≤ n := by
  unfold api_call_loop_tick
  dsimp only
  have hs1 : ∃ t1,
      (if s.last_get_user_info_time + api_get_user_info_interval < now then
        { s with last_get_user_info_time := now }
      else s) = { s with last_get_user_info_time := t1 } := by
    split
    · exact ⟨now, rfl⟩
    · exact ⟨s.last_get_user_info_time, rfl⟩
  obtain ⟨t1, h1⟩ := hs1
  rw [h1]
  obtain ⟨t, f, d, n, h2, hn⟩ :=
    api_job_pop_effects { s with last_get_user_info_time := t1 } now p
  rw [h2]
  rcases api_submit_job_effects
      { s with
        last_get_user_info_time := t1
        last_job_pop_time := t
        job_pop_frequency := f
        job_deque := d
        testing_jobs_added := n } u o with h3 | ⟨cji, rest, _, h3⟩
  · rw [h3]
    exact ⟨t1, t, f, d, n, s.completed_jobs, rfl, hn⟩
  · rw [h3]
    exact ⟨t1, t, f, d, n, rest, rfl, hn⟩

lemma step_preserves_cfg (s t : ManagerState) (h : Step s t) :
    cfgOf t = cfgOf s := by
  cases h with
  | handleMessages msgs => exact (receive_effects s msgs).1
  | preload =>
    unfold preload_models
    rcases preload_aux_effects s s.job_deque 0 with h1 | ⟨m, p, h1⟩ <;> rw [h1] <;> rfl
  | startInference =>
    rcases start_inference_spec s with h1 | ⟨j, h1, _⟩ <;> rw [h1] <;> rfl
  | unloadFromRam pid =>
    obtain ⟨mm, h1⟩ := unload_from_ram_model_map_only s pid
    rw [h1]; rfl
  | unloadModels =>
    obtain ⟨mm, h1⟩ := unload_models_effects s
    rw [h1]; rfl
  | startEvaluateSafety =>
    rcases start_evaluate_safety_effects s with h1 | ⟨c, r, _, h1⟩ <;> rw [h1] <;> rfl
  | submitJob u o =>
    rcases api_submit_job_effects s u o with h1 | ⟨c, r, _, h1⟩ <;> rw [h1] <;> rfl
  | jobPop now o =>
    obtain ⟨t2, f, d, n, h1, _⟩ := api_job_pop_effects s now o
    rw [h1]; rfl
  | getUserInfo o =>
    obtain ⟨ui, fl, r, h1⟩ := api_get_user_info_effects s o
    rw [h1]; rfl
  | apiTick now p u o =>
    obtain ⟨t1, t2, f, d, n, c, h1, _⟩ := api_call_loop_tick_effects s now p u o
    rw [h1]; rfl
  | startSafetyProcs =>
    obtain ⟨e, h1, _⟩ := start_safety_processes_effects s
    rw [h1]; rfl
  | startInferenceProcs =>
    obtain ⟨e, h1, _⟩ := start_inference_processes_effects s
    rw [h1]; rfl
  | endInferenceProcs => rw [end_inference_processes_id]

lemma step_testing_monotone (s t : ManagerState) (h : Step s t) :
    s.testing_jobs_added ≤ t.testing_jobs_added := by
  cases h with
  | handleMessages msgs =>
    have h1 := (receive_effects s msgs).2.1
    simp only [popFieldsOf, Prod.mk.injEq] at h1
    omega
  | preload =>
    unfold preload_models
    rcases preload_aux_effects s s.job_deque 0 with h1 | ⟨m, p, h1⟩ <;> rw [h1]
  | startInference =>
    rcases start_inference_spec s with h1 | ⟨j, h1, _⟩ <;> rw [h1]
  | unloadFromRam pid =>
    obtain ⟨mm, h1⟩ := unload_from_ram_model_map_only s pid
    rw [h1]
  | unloadModels =>
    obtain ⟨mm, h1⟩ := unload_models_effects s
    rw [h1]
  | startEvaluateSafety =>
    rcases start_evaluate_safety_effects s with h1 | ⟨c, r, _, h1⟩ <;> rw [h1]
  | submitJob u o =>
    rcases api_submit_job_effects s u o with h1 | ⟨c, r, _, h1⟩ <;> rw [h1]
  | jobPop now o =>
    obtain ⟨t2, f, d, n, h1, hn⟩ := api_job_pop_effects s now o
    rw [h1]; exact hn
  | getUserInfo o =>
    obtain ⟨ui, fl, r, h1⟩ := api_get_user_info_effects s o
    rw [h1]
  | apiTick now p u o =>
    obtain ⟨t1, t2, f, d, n, c, h1, hn⟩ := api_call_loop_tick_effects s now p u o
    rw [h1]; exact hn
  | startSafetyProcs =>
    obtain ⟨e, h1, _⟩ := start_safety_processes_effects s
    rw [h1]
  | startInferenceProcs =>
    obtain ⟨e, h1, _⟩ := start_inference_processes_effects s
    rw [h1]
  | endInferenceProcs => rw [end_inference_processes_id]

lemma step_preserves_job_bound (s t : ManagerState) (h : Step s t)
    (hinv : s.jobs_in_progress.length ≤ s.max_concurrent_inference_processes) :
    t.jobs_in_progress.length ≤ t.max_concurrent_inference_processes := by
  cases h with
  | handleMessages msgs =>
    have h1 := (receive_effects s msgs).2.2.2.2.1
    have h2 := (receive_effects s msgs).2.2.2.2.2
    omega
  | preload =>
    unfold preload_models
    rcases preload_aux_effects s s.job_deque 0 with h1 | ⟨m, p, h1⟩ <;> rw [h1] <;>
      exact hinv
  | startInference =>
    rcases start_inference_spec s with h1 | ⟨j, h1, hlt⟩
    · rw [h1]; exact hinv
    · rw [h1]
      have : (s.jobs_in_progress ++ [j]).length = s.jobs_in_progress.length + 1 := by
        simp
      calc ({ s with jobs_in_progress := s.jobs_in_progress ++ [j] } :
            ManagerState).jobs_in_progress.length
          = s.jobs_in_progress.length + 1 := this
        _ ≤ s.max_concurrent_inference_processes := hlt
  | unloadFromRam pid =>
    obtain ⟨mm, h1⟩ := unload_from_ram_model_map_only s pid
    rw [h1]; exact hinv
  | unloadModels =>
    obtain ⟨mm, h1⟩ := unload_models_effects s
    rw [h1]; exact hinv
  | startEvaluateSafety =>
    rcases start_evaluate_safety_effects s with h1 | ⟨c, r, _, h1⟩ <;> rw [h1] <;>
      exact hinv
  | submitJob u o =>
    rcases api_submit_job_effects s u o with h1 | ⟨c, r, _, h1⟩ <;> rw [h1] <;>
      exact hinv
  | jobPop now o =>
    obtain ⟨t2, f, d, n, h1, _⟩ := api_job_pop_effects s now o
    rw [h1]; exact hinv
  | getUserInfo o =>
    obtain ⟨ui, fl, r, h1⟩ := api_get_user_info_effects s o
    rw [h1]; exact hinv
  | apiTick now p u o =>
    obtain ⟨t1, t2, f, d, n, c, h1, _⟩ := api_call_loop_tick_effects s now p u o
    rw [h1]; exact hinv
  | startSafetyProcs =>
    obtain ⟨e, h1, _⟩ := start_safety_processes_effects s
    rw [h1]; exact hinv
  | startInferenceProcs =>
    obtain ⟨e, h1, _⟩ := start_inference_processes_effects s
    rw [h1]; exact hinv
  | endInferenceProcs => rw [end_inference_processes_id]; exact hinv

/-! ### Concrete states used by witnesses and counterexamples -/

def exPayload : JobPayload :=
  { seed := some 42, prompt := some "a cat", loras := none, tiling := none,
    use_nsfw_censor := false }

def exJob : Job :=
  { id_ := some "job-1", model := some "modelA", payload := exPayload,
    r2_upload := some "upload-url" }

def exProcess : HordeProcessInfo :=
  { process_id := 0, process_type := HordeProcessKind.INFERENCE,
    last_process_state := HordeProcessState.WAITING_FOR_JOB,
    loaded_horde_model_name := none, ram_usage_bytes := 0,
    vram_usage_bytes := 0, total_vram_bytes := 0 }

def exState : ManagerState :=
  { queue_size := 1, max_concurrent_inference_processes := 1,
    max_inference_processes := 1, max_safety_processes := 1, nsfw := true,
    total_ram_bytes := 1000, target_ram_overhead_bytes := 100,
    process_map := [exProcess], horde_model_map := [],
    jobs_in_progress := [exJob], jobs_pending_safety_check := [],
    jobs_being_safety_checked := [], completed_jobs := [],
    job_deque := [exJob], total_num_completed_jobs := 0,
    stable_diffusion_reference := [("modelA", "ref-record")],
    user_info := none, user_info_failed := false,
    user_info_failed_reason := none, last_get_user_info_time := 0,
    testing_jobs_added := 0, job_pop_frequency := 1, last_job_pop_time := 0 }

/-! ### Claim C5 -/

/-- C5: the invariant that the number of in-progress jobs never exceeds
`max_concurrent_inference_processes` holds in every reachable state:
`start_inference` returns without touching the state when the bound is
already met, and every orchestrator step preserves the bound. -/
theorem c5_in_progress_bounded :
    (∀ s : ManagerState,
      s.max_concurrent_inference_processes ≤ s.jobs_in_progress.length →
      (start_inference s).1 = s) ∧
    (∀ s0 s : ManagerState, Reachable s0 s →
      s0.jobs_in_progress.length ≤ s0.max_concurrent_inference_processes →
      s.jobs_in_progress.length ≤ s.max_concurrent_inference_processes) := by
  constructor
  · intro s hfull
    unfold start_inference
    rw [if_pos hfull]
  · intro s0 s hreach hinit
    induction hreach with
    | refl => exact hinit
    | tail _ hstep ih => exact step_preserves_job_bound _ _ hstep ih

/-- Witness for C5 at a concrete state with one in-progress job and a
concurrency limit of one. -/
theorem c5_in_progress_bounded_witness :
    (start_inference exState).1 = exState ∧
    exState.jobs_in_progress.length
      ≤ exState.max_concurrent_inference_processes :=
  ⟨c5_in_progress_bounded.1 exState (by decide),
   c5_in_progress_bounded.2 exState exState Relation.ReflTransGen.refl
     (by decide)⟩

/-! ### Claim C9 -/

/-- C9: once 10000 jobs have been appended to the deque over the run, every
call to `api_job_pop` returns immediately, issuing no pop request and
leaving the state untouched - and no orchestrator step ever decreases the
counter, so the worker permanently stops acquiring work. -/
theorem c9_testing_job_cap :
    (∀ (s : ManagerState) (now : Int) (o : PopOutcome),
      testing_max_jobs ≤ s.testing_jobs_added →
      api_job_pop s now o = (s, false)) ∧
    (∀ s t : ManagerState, Step s t →
      testing_max_jobs ≤ s.testing_jobs_added →
      testing_max_jobs ≤ t.testing_jobs_added) := by
  constructor
  · intro s now o h
    unfold api_job_pop
    split
    · rfl
    · rfl
  · intro s t hstep h
    exact le_trans h (step_testing_monotone s t hstep)

def c9exState : ManagerState := { exState with testing_jobs_added := 10000 }

/-- Witness for C9 at a concrete state with 10000 jobs already added. -/
theorem c9_testing_job_cap_witness :
    api_job_pop c9exState 100 PopOutcome.noJob = (c9exState, false) ∧
    testing_max_jobs ≤ (end_inference_processes c9exState).1.testing_jobs_added :=
  ⟨c9_testing_job_cap.1 c9exState 100 PopOutcome.noJob (by decide),
   c9_testing_job_cap.2 c9exState _ (Step.endInferenceProcs c9exState)
     (by decide)⟩

/-! ### Claim C4 -/

/-- C4: an InferenceResult message (with a present image list) removes the
job from `jobs_in_progress` by id, pops the deque's left end, increments
`total_num_completed_jobs` by one, and appends a completed-job record with
`censored` unset to `jobs_pending_safety_check`. -/
theorem c4_inference_result_retires_job (s : ManagerState) (pid : Nat)
    (job : Job) (imgs : List String) (st : GENERATION_STATE)
    (hpid : pmContains s.process_map pid = true)
    (hdeque : s.job_deque ≠ []) :
    handle_message s
        (HordeProcessMessage.inferenceResult pid job (some imgs) st) =
      ({ s with
         jobs_in_progress :=
           s.jobs_in_progress.filter (fun j => !(j.id_ == job.id_))
         job_deque := s.job_deque.tail
         total_num_completed_jobs := s.total_num_completed_jobs + 1
         jobs_pending_safety_check := s.jobs_pending_safety_check ++
           [{ job_info := job
              job_result_images_base64 := some imgs
              state := st
              censored := none }] }, none) := by
  unfold handle_message
  simp only [HordeProcessMessage.process_id, hpid, Bool.not_true,
    Bool.false_eq_true, if_false]
  cases hd : s.job_deque with
  | nil => exact absurd hd hdeque
  | cons a rest => simp [hd]

/-- Witness for C4 at a concrete state. -/
theorem c4_inference_result_retires_job_witness :
    (handle_message exState
        (HordeProcessMessage.inferenceResult 0 exJob (some ["img"])
          GENERATION_STATE.ok)).1.total_num_completed_jobs = 1 := by
  rw [c4_inference_result_retires_job exState 0 exJob ["img"]
    GENERATION_STATE.ok (by decide) (by decide)]
  rfl

/-! ### Claim C10 -/

/-- C10: an InferenceResult message whose image list is absent is logged and
skipped: the state is left entirely unchanged (no job removed, no deque pop,
no counter increment, nothing enqueued for safety), and no error is
raised. -/
theorem c10_none_images_skipped (s : ManagerState) (pid : Nat) (job : Job)
    (st : GENERATION_STATE)
    (hpid : pmContains s.process_map pid = true) :
    handle_message s (HordeProcessMessage.inferenceResult pid job none st) =
      (s, none) := by
  unfold handle_message
  simp [HordeProcessMessage.process_id, hpid]

/-- Witness for C10 at a concrete state. -/
theorem c10_none_images_skipped_witness :
    handle_message exState
        (HordeProcessMessage.inferenceResult 0 exJob none GENERATION_STATE.ok) =
      (exState, none) :=
  c10_none_images_skipped exState 0 exJob GENERATION_STATE.ok (by decide)

/-! ### Claim C6 -/

lemma api_job_pop_run (s : ManagerState) (now : Int) (o : PopOutcome)
    (h1 : s.job_deque.length < s.queue_size + 1)
    (h2 : s.testing_jobs_added < testing_max_jobs)
    (h3 : s.job_pop_frequency ≤ now - s.last_job_pop_time) :
    api_job_pop s now o =
      (match o with
       | .errorResponse =>
         ({ s with
            last_job_pop_time := now
            job_pop_frequency := error_job_pop_frequency }, true)
       | .exception =>
         ({ s with
            last_job_pop_time := now
            job_pop_frequency := error_job_pop_frequency }, true)
       | .noJob =>
         ({ s with
            last_job_pop_time := now
            job_pop_frequency := default_job_pop_frequency }, true)
       | .newJob j =>
         ({ s with
            last_job_pop_time := now
            job_pop_frequency := default_job_pop_frequency
            job_deque := s.job_deque ++ [j]
            testing_jobs_added := s.testing_jobs_added + 1 }, true)) := by
  unfold api_job_pop
  rw [if_neg (by omega), if_neg (by omega), if_neg (by omega)]

lemma api_job_pop_not_requested (s : ManagerState) (now : Int) (o : PopOutcome)
    (h : s.queue_size + 1 ≤ s.job_deque.length ∨
         testing_max_jobs ≤ s.testing_jobs_added ∨
         now - s.last_job_pop_time < s.job_pop_frequency) :
    api_job_pop s now o = (s, false) := by
  unfold api_job_pop
  rcases h with h1 | h2 | h3
  · rw [if_pos h1]
  · split <;> rfl
  · split
    · rfl
    · split <;> rfl

lemma api_job_pop_requested_guards (s : ManagerState) (now : Int)
    (o : PopOutcome) (h : (api_job_pop s now o).2 = true) :
    s.job_deque.length < s.queue_size + 1 ∧
    s.testing_jobs_added < testing_max_jobs ∧
    s.job_pop_frequency ≤ now - s.last_job_pop_time := by
  by_cases h1 : s.queue_size + 1 ≤ s.job_deque.length
  · rw [api_job_pop_not_requested s now o (Or.inl h1)] at h
    exact absurd h (by simp)
  · by_cases h2 : testing_max_jobs ≤ s.testing_jobs_added
    · rw [api_job_pop_not_requested s now o (Or.inr (Or.inl h2))] at h
      exact absurd h (by simp)
    · by_cases h3 : now - s.last_job_pop_time < s.job_pop_frequency
      · rw [api_job_pop_not_requested s now o (Or.inr (Or.inr h3))] at h
        exact absurd h (by simp)
      · exact ⟨by omega, by omega, by omega⟩

/-- C6: `api_job_pop` issues a pop request only when the deque holds fewer
than queue_size + 1 jobs and at least the current pop interval has elapsed
since the last attempt; a failed attempt (error response or exception) sets
the interval to 5 seconds, so no pop is attempted less than 5 seconds after
it; a non-failed response resets the interval to 1 second; and a response
carrying a job appends that job to the deque. -/
theorem c6_job_pop_interval_policy (s : ManagerState) (now : Int) :
    (∀ o : PopOutcome, (api_job_pop s now o).2 = true →
      s.job_deque.length < s.queue_size + 1 ∧
      s.job_pop_frequency ≤ now - s.last_job_pop_time) ∧
    (∀ o : PopOutcome,
      (o = PopOutcome.errorResponse ∨ o = PopOutcome.exception) →
      (api_job_pop s now o).2 = true →
      (api_job_pop s now o).1.job_pop_frequency = error_job_pop_frequency ∧
      (∀ (now2 : Int) (o2 : PopOutcome),
        now2 - now < error_job_pop_frequency →
        (api_job_pop (api_job_pop s now o).1 now2 o2).2 = false)) ∧
    (∀ o : PopOutcome,
      (o = PopOutcome.noJob ∨ ∃ j, o = PopOutcome.newJob j) →
      (api_job_pop s now o).2 = true →
      (api_job_pop s now o).1.job_pop_frequency = default_job_pop_frequency) ∧
    (∀ j : Job, (api_job_pop s now (PopOutcome.newJob j)).2 = true →
      (api_job_pop s now (PopOutcome.newJob j)).1.job_deque
        = s.job_deque ++ [j]) := by
  refine ⟨?_, ?_, ?_, ?_⟩
  · intro o h
    obtain ⟨h1, h2, h3⟩ := api_job_pop_requested_guards s now o h
    exact ⟨h1, h3⟩
  · intro o ho h
    obtain ⟨h1, h2, h3⟩ := api_job_pop_requested_guards s now o h
    have hrun := api_job_pop_run s now o h1 h2 h3
    rcases ho with ho | ho <;> subst ho <;> rw [hrun]
    · refine ⟨rfl, ?_⟩
      intro now2 o2 hlt
      rw [api_job_pop_not_requested _ now2 o2 (Or.inr (Or.inr hlt))]
    · refine ⟨rfl, ?_⟩
      intro now2 o2 hlt
      rw [api_job_pop_not_requested _ now2 o2 (Or.inr (Or.inr hlt))]
  · intro o ho h
    obtain ⟨h1, h2, h3⟩ := api_job_pop_requested_guards s now o h
    have hrun := api_job_pop_run s now o h1 h2 h3
    rcases ho with ho | ⟨j, ho⟩ <;> subst ho <;> rw [hrun]
  · intro j h
    obtain ⟨h1, h2, h3⟩ := api_job_pop_requested_guards s now _ h
    rw [api_job_pop_run s now _ h1 h2 h3]

/-- Witness for C6: a failed pop at time 10 sets the 5-second interval and a
pop at time 12 is refused; a successful pop appends the job. -/
theorem c6_job_pop_interval_policy_witness :
    (api_job_pop exState 10 PopOutcome.errorResponse).1.job_pop_frequency
      = error_job_pop_frequency ∧
    (api_job_pop (api_job_pop exState 10 PopOutcome.errorResponse).1 12
        PopOutcome.noJob).2 = false ∧
    (api_job_pop exState 10 (PopOutcome.newJob exJob)).1.job_deque
      = exState.job_deque ++ [exJob] :=
  ⟨((c6_job_pop_interval_policy exState 10).2.1 PopOutcome.errorResponse
      (Or.inl rfl) (by decide)).1,
   ((c6_job_pop_interval_policy exState 10).2.1 PopOutcome.errorResponse
      (Or.inl rfl) (by decide)).2 12 PopOutcome.noJob (by decide),
   (c6_job_pop_interval_policy exState 10).2.2.2 exJob (by decide)⟩

/-! ### Claim C3 -/

def c3exCompleted : CompletedJobInfo :=
  { job_info := exJob, job_result_images_base64 := some ["img"],
    state := GENERATION_STATE.ok, censored := some false }

def c3exState : ManagerState := { exState with completed_jobs := [c3exCompleted] }

/-- Counterexample to C3 as stated: the upload returns 204 (a 2xx status)
and the submit request would succeed, yet the completed queue is unchanged -
the code treats only status 200 as upload success (`status_code != 200`). -/
theorem c3_submit_2xx_counterexample :
    (200 ≤ 204 ∧ 204 < 300) ∧
    api_submit_job c3exState (some 204) (SubmitOutcome.success 10)
      = (c3exState, none) ∧
    c3exState.completed_jobs = [c3exCompleted] :=
  ⟨by decide, rfl, rfl⟩

lemma api_submit_job_valid (s : ManagerState) (cji : CompletedJobInfo)
    (rest : List CompletedJobInfo) (img idv : String) (seedv : Int)
    (urlv : String) (cen : Bool)
    (hc : s.completed_jobs = cji :: rest)
    (himg : cji.job_result_images_base64 = some [img])
    (hid : cji.job_info.id_ = some idv)
    (hseed : cji.job_info.payload.seed = some seedv)
    (hr2 : cji.job_info.r2_upload = some urlv)
    (hcen : cji.censored = some cen)
    (u : Option Nat) (o : SubmitOutcome) :
    api_submit_job s u o =
      (match u with
       | none => (s, none)
       | some status =>
         if status ≠ 200 then (s, none)
         else
           match o with
           | .requestError => (s, none)
           | .exception => (s, none)
           | .success _ => ({ s with completed_jobs := rest }, none)) := by
  unfold api_submit_job
  rw [hc]
  cases u with
  | none => simp [himg, hid, hseed, hr2, hcen]
  | some status =>
    by_cases hst : status = 200
    · subst hst
      cases o <;> simp [himg, hid, hseed, hr2, hcen, List.erase_cons_head]
    · simp [himg, hid, hseed, hr2, hcen, hst]

/-- C3 amended: for a valid head record, the head is removed from the
completed queue if and only if the HTTP PUT returned status exactly 200 and
the submit request succeeded; in every other case (any non-200 status,
including other 2xx codes, an exception during encode or upload, a
RequestError response, or an exception during submit) the completed queue is
left unchanged, so the record is retried on the next tick. -/
theorem c3_submit_removes_iff_200 (s : ManagerState) (cji : CompletedJobInfo)
    (rest : List CompletedJobInfo) (img idv : String) (seedv : Int)
    (urlv : String) (cen : Bool)
    (hc : s.completed_jobs = cji :: rest)
    (himg : cji.job_result_images_base64 = some [img])
    (hid : cji.job_info.id_ = some idv)
    (hseed : cji.job_info.payload.seed = some seedv)
    (hr2 : cji.job_info.r2_upload = some urlv)
    (hcen : cji.censored = some cen)
    (u : Option Nat) (o : SubmitOutcome) :
    ((api_submit_job s u o).1.completed_jobs = rest ↔
      (u = some 200 ∧ ∃ r, o = SubmitOutcome.success r)) ∧
    (¬(u = some 200 ∧ ∃ r, o = SubmitOutcome.success r) →
      (api_submit_job s u o).1 = s) := by
  have hne : cji :: rest ≠ rest := by
    intro habs
    exact absurd (congrArg List.length habs) (by simp)
  have hrun := api_submit_job_valid s cji rest img idv seedv urlv cen hc himg
    hid hseed hr2 hcen u o
  rcases u with _ | status
  · have hres : api_submit_job s none o = (s, none) := by rw [hrun]
    rw [hres]
    refine ⟨⟨fun hrem => absurd (hc.symm.trans hrem) hne, ?_⟩, fun _ => rfl⟩
    rintro ⟨h200, -⟩
    exact Option.noConfusion h200
  · by_cases h200 : status = 200
    · subst h200
      cases o with
      | success r =>
        have hres : api_submit_job s (some 200) (SubmitOutcome.success r)
            = ({ s with completed_jobs := rest }, none) := by
          rw [hrun]; simp
        rw [hres]
        exact ⟨⟨fun _ => ⟨rfl, r, rfl⟩, fun _ => rfl⟩,
          fun hno => absurd ⟨rfl, r, rfl⟩ hno⟩
      | requestError =>
        have hres : api_submit_job s (some 200) SubmitOutcome.requestError
            = (s, none) := by
          rw [hrun]; simp
        rw [hres]
        refine ⟨⟨fun hrem => absurd (hc.symm.trans hrem) hne, ?_⟩, fun _ => rfl⟩
        rintro ⟨-, r, hr⟩
        exact SubmitOutcome.noConfusion hr
      | exception =>
        have hres : api_submit_job s (some 200) SubmitOutcome.exception
            = (s, none) := by
          rw [hrun]; simp
        rw [hres]
        refine ⟨⟨fun hrem => absurd (hc.symm.trans hrem) hne, ?_⟩, fun _ => rfl⟩
        rintro ⟨-, r, hr⟩
        exact SubmitOutcome.noConfusion hr
    · have hres : api_submit_job s (some status) o = (s, none) := by
        rw [hrun]; simp [h200]
      rw [hres]
      refine ⟨⟨fun hrem => absurd (hc.symm.trans hrem) hne, ?_⟩, fun _ => rfl⟩
      rintro ⟨h2, -⟩
      exact absurd (Option.some.inj h2) h200

/-- Witness for C3 (amended) at a concrete state: a 200 upload plus a
successful submit removes the head; a 500 upload leaves the state
unchanged. -/
theorem c3_submit_removes_iff_200_witness :
    (api_submit_job c3exState (some 200) (SubmitOutcome.success 10)).1.completed_jobs
      = [] ∧
    (api_submit_job c3exState (some 500) SubmitOutcome.requestError).1
      = c3exState :=
  ⟨(c3_submit_removes_iff_200 c3exState c3exCompleted [] "img" "job-1" 42
      "upload-url" false rfl rfl rfl rfl rfl rfl (some 200)
      (SubmitOutcome.success 10)).1.mpr ⟨rfl, 10, rfl⟩,
   (c3_submit_removes_iff_200 c3exState c3exCompleted [] "img" "job-1" 42
      "upload-url" false rfl rfl rfl rfl rfl rfl (some 500)
      SubmitOutcome.requestError).2 (by simp)⟩

/-! ### Claim C7 -/

def c7badMsg : HordeProcessMessage :=
  HordeProcessMessage.stateChange 5 HordeProcessState.INFERENCE_RUNNING none

def c7goodMsg : HordeProcessMessage :=
  HordeProcessMessage.stateChange 0 HordeProcessState.INFERENCE_RUNNING none

/-- Counterexample to C7 as stated: a drain holding a message from an
unknown process followed by a well-formed state-change message raises on the
first message and never handles the second - the final state does not
reflect the second message, which would have changed it. -/
theorem c7_sibling_messages_counterexample :
    (receive_and_handle_process_messages exState [c7badMsg, c7goodMsg]).1
      = exState ∧
    (receive_and_handle_process_messages exState
        [c7badMsg, c7goodMsg]).2.isSome = true ∧
    (handle_message exState c7goodMsg).1 ≠ exState := by
  refine ⟨rfl, rfl, ?_⟩
  decide

/-- C7 amended: an exception raised while handling one message propagates
out of the drain loop immediately: the messages after it in the inbound
queue are not dispatched during that drain, and the state keeps only the
mutations made up to the raise. -/
theorem c7_exception_aborts_drain (s s1 : ManagerState)
    (m : HordeProcessMessage) (rest : List HordeProcessMessage) (e : String)
    (h : handle_message s m = (s1, some e)) :
    receive_and_handle_process_messages s (m :: rest) = (s1, some e) := by
  unfold receive_and_handle_process_messages
  rw [h]

/-- Witness for C7 (amended): the unknown-pid message aborts the drain with
the sibling message still pending. -/
theorem c7_exception_aborts_drain_witness :
    receive_and_handle_process_messages exState [c7badMsg, c7goodMsg] =
      (exState, some "Received a message from an unknown process") :=
  c7_exception_aborts_drain exState exState c7badMsg [c7goodMsg]
    "Received a message from an unknown process" rfl

/-! ### Claim C1 -/

lemma applySafetyEvals_some_length (imgs : List String)
    (evals : List SafetyEvaluation) (out : List String × Nat × Nat)
    (h : applySafetyEvals imgs evals = some out) :
    imgs.length ≤ evals.length := by
  induction imgs generalizing evals out with
  | nil => simp
  | cons img imgs ih =>
    cases evals with
    | nil => simp [applySafetyEvals] at h
    | cons ev evs =>
      unfold applySafetyEvals at h
      cases happ : applySafetyEvals imgs evs with
      | none => rw [happ] at h; simp at h
      | some out2 =>
        have := ih evs out2 happ
        simp only [List.length_cons]
        omega

lemma applySafetyEvals_eq (imgs : List String)
    (evals : List SafetyEvaluation) (h : imgs.length ≤ evals.length) :
    applySafetyEvals imgs evals =
      some ((imgs.zip evals).map
              (fun p => p.2.replacement_image_base64.getD p.1),
            (evals.take imgs.length).countP
              (fun e => e.replacement_image_base64.isSome),
            (evals.take imgs.length).countP
              (fun e => e.replacement_image_base64.isSome && e.is_csam)) := by
  induction imgs generalizing evals with
  | nil => simp [applySafetyEvals]
  | cons img imgs ih =>
    cases evals with
    | nil => simp at h
    | cons ev evs =>
      unfold applySafetyEvals
      rw [ih evs (by simpa using h)]
      cases hrep : ev.replacement_image_base64 with
      | none =>
        simp [hrep, List.countP_cons, List.take_succ_cons, List.zip_cons_cons]
      | some rep =>
        cases hcs : ev.is_csam <;>
          simp [hrep, hcs, List.countP_cons, List.take_succ_cons,
            List.zip_cons_cons, Nat.add_comm]

/-- C1 amended: a SafetyResult message whose job id matches a record in
`jobs_being_safety_checked` substitutes every supplied replacement image
into the record, sets `censored` to true exactly when the number of images
with a replacement is positive (false otherwise), sets the state to CSAM if
any image with a replacement has `is_csam` (CSAM reported on an image
without a replacement is ignored), else to CENSORED if any image has a
replacement, else leaves the prior state, and appends the record to the
completed queue. -/
theorem c1_safety_result_updates_record (s : ManagerState) (pid : Nat)
    (jid : String) (evals : List SafetyEvaluation) (cji : CompletedJobInfo)
    (remaining : List CompletedJobInfo) (imgs newImgs : List String)
    (nc ncs : Nat)
    (hpid : pmContains s.process_map pid = true)
    (hfind : popFirstById s.jobs_being_safety_checked jid
      = some (cji, remaining))
    (himgs : cji.job_result_images_base64 = some imgs)
    (happly : applySafetyEvals imgs evals = some (newImgs, nc, ncs)) :
    handle_message s (HordeProcessMessage.safetyResult pid jid evals) =
      ({ s with
         jobs_being_safety_checked := remaining
         completed_jobs := s.completed_jobs ++
           [if nc > 0 then
              { cji with
                job_result_images_base64 := some newImgs
                censored := some true
                state := if ncs > 0 then GENERATION_STATE.csam
                         else GENERATION_STATE.censored }
            else
              { cji with
                job_result_images_base64 := some newImgs
                censored := some false }] }, none) ∧
    newImgs = (imgs.zip evals).map
      (fun p => p.2.replacement_image_base64.getD p.1) ∧
    nc = (evals.take imgs.length).countP
      (fun e => e.replacement_image_base64.isSome) ∧
    ncs = (evals.take imgs.length).countP
      (fun e => e.replacement_image_base64.isSome && e.is_csam) := by
  have hlen := applySafetyEvals_some_length imgs evals _ happly
  have heq := applySafetyEvals_eq imgs evals hlen
  rw [happly] at heq
  have hinj := Option.some.inj heq
  refine ⟨?_, congrArg Prod.fst hinj,
    congrArg (fun p => p.2.1) hinj, congrArg (fun p => p.2.2) hinj⟩
  unfold handle_message
  simp only [HordeProcessMessage.process_id, hpid, Bool.not_true,
    Bool.false_eq_true, if_false]
  rw [hfind]
  dsimp only
  rw [himgs]
  dsimp only
  rw [happly]

def c1exRecord : CompletedJobInfo :=
  { job_info := exJob, job_result_images_base64 := some ["img"],
    state := GENERATION_STATE.ok, censored := none }

def c1exState : ManagerState :=
  { exState with jobs_being_safety_checked := [c1exRecord] }

def c1exEval : SafetyEvaluation :=
  { is_nsfw := false, is_csam := true, replacement_image_base64 := none }

/-- Counterexample to C1 as stated: the single image's evaluation reports
`is_csam = true` but supplies no replacement; the dispatcher leaves the
record's state at its prior value (ok) and sets `censored = false`, whereas
the claim requires the state to become CSAM. -/
theorem c1_csam_without_replacement_counterexample :
    c1exEval.is_csam = true ∧
    (handle_message c1exState
        (HordeProcessMessage.safetyResult 0 "job-1" [c1exEval])).1.completed_jobs.map
        (fun c => (c.state, c.censored))
      = [(GENERATION_STATE.ok, some false)] :=
  ⟨rfl, rfl⟩

def c1wEval : SafetyEvaluation :=
  { is_nsfw := true, is_csam := true, replacement_image_base64 := some "rep" }

/-- Witness for C1 (amended): a replaced CSAM image yields state CSAM,
censored true, the replacement substituted, and the record moved to the
completed queue. -/
theorem c1_safety_result_updates_record_witness :
    handle_message c1exState
        (HordeProcessMessage.safetyResult 0 "job-1" [c1wEval]) =
      ({ c1exState with
         jobs_being_safety_checked := []
         completed_jobs :=
           [{ job_info := exJob, job_result_images_base64 := some ["rep"],
              state := GENERATION_STATE.csam, censored := some true }] }, none) := by
  have h := (c1_safety_result_updates_record c1exState 0 "job-1" [c1wEval]
    c1exRecord [] ["img"] ["rep"] 1 1 (by decide) rfl rfl rfl).1
  rw [h]
  rfl

/-! ### Claim C8 -/

/-- Counterexample to C8 as stated: at a tick where far more than 5 seconds
have elapsed since the last user-info fetch, the API loop updates the
timestamp but fetches nothing - `user_info` stays absent and
`user_info_failed` stays false, while a fetch would have set one of them
(the `api_get_user_info` task is commented out in `_api_call_loop`). -/
theorem c8_user_info_fetch_counterexample :
    exState.last_get_user_info_time + api_get_user_info_interval < 100 ∧
    (api_call_loop_tick exState 100 PopOutcome.noJob none
        SubmitOutcome.exception).1.user_info = none ∧
    (api_call_loop_tick exState 100 PopOutcome.noJob none
        SubmitOutcome.exception).1.user_info_failed = false ∧
    (api_call_loop_tick exState 100 PopOutcome.noJob none
        SubmitOutcome.exception).1.last_get_user_info_time = 100 :=
  ⟨by decide, rfl, rfl, rfl⟩

/-- C8 amended: the user-info refresh guard in the API loop only updates the
last-fetch timestamp (at most every 5 seconds) - the fetch call itself is
commented out, so an API tick never changes `user_info`,
`user_info_failed`, or the failure reason; the 5-second failure sleep runs
at the top of a tick exactly when `user_info_failed` is set; and the
standalone `api_get_user_info` coroutine stores the account record and
clears the flag on success, sets the flag with a descriptive reason on a
transport or unexpected error, and sets only the flag on an API error
response. -/
theorem c8_user_info_refresh (s : ManagerState) (now : Int) (p : PopOutcome)
    (u : Option Nat) (o : SubmitOutcome) (tn msg : String)
    (r : FindUserResponse) :
    userFieldsOf (api_call_loop_tick s now p u o).1 = userFieldsOf s ∧
    (api_call_loop_tick s now p u o).2 = s.user_info_failed ∧
    (s.last_get_user_info_time + api_get_user_info_interval < now →
      (api_call_loop_tick s now p u o).1.last_get_user_info_time = now) ∧
    api_get_user_info s (UserInfoOutcome.success r) =
      { s with
        user_info := some r
        user_info_failed := false
        user_info_failed_reason := none } ∧
    api_get_user_info s UserInfoOutcome.requestError =
      { s with user_info_failed := true } ∧
    api_get_user_info s (UserInfoOutcome.clientError tn msg) =
      { s with
        user_info_failed := true
        user_info_failed_reason :=
          some ("HTTP error ((" ++ tn ++ ") " ++ msg ++ ")") } ∧
    api_get_user_info s (UserInfoOutcome.exception tn msg) =
      { s with
        user_info_failed := true
        user_info_failed_reason :=
          some ("Unexpected error ((" ++ tn ++ ") " ++ msg ++ ")") } := by
  refine ⟨?_, rfl, ?_, rfl, rfl, rfl, rfl⟩
  · unfold api_call_loop_tick
    dsimp only
    have h1 : ∃ t1,
        (if s.last_get_user_info_time + api_get_user_info_interval < now then
          { s with last_get_user_info_time := now }
        else s) = { s with last_get_user_info_time := t1 } := by
      split
      · exact ⟨now, rfl⟩
      · exact ⟨s.last_get_user_info_time, rfl⟩
    obtain ⟨t1, h1⟩ := h1
    rw [h1]
    obtain ⟨t, f, d, n, h2, -⟩ :=
      api_job_pop_effects { s with last_get_user_info_time := t1 } now p
    rw [h2]
    rcases api_submit_job_effects
        { s with
          last_get_user_info_time := t1
          last_job_pop_time := t
          job_pop_frequency := f
          job_deque := d
          testing_jobs_added := n } u o with h3 | ⟨cji, rest, -, h3⟩ <;>
      rw [h3] <;> rfl
  · intro hlt
    unfold api_call_loop_tick
    dsimp only
    rw [if_pos hlt]
    obtain ⟨t, f, d, n, h2, -⟩ :=
      api_job_pop_effects { s with last_get_user_info_time := now } now p
    rw [h2]
    rcases api_submit_job_effects
        { s with
          last_get_user_info_time := now
          last_job_pop_time := t
          job_pop_frequency := f
          job_deque := d
          testing_jobs_added := n } u o with h3 | ⟨cji, rest, -, h3⟩ <;>
      rw [h3] <;> rfl

/-- Witness for C8 (amended): at time 100 with a last fetch at 0 the
timestamp is refreshed to 100. -/
theorem c8_user_info_refresh_witness :
    (api_call_loop_tick exState 100 PopOutcome.noJob none
        SubmitOutcome.exception).1.last_get_user_info_time = 100 :=
  (c8_user_info_refresh exState 100 PopOutcome.noJob none
    SubmitOutcome.exception "E" "m" { kudos := 0 }).2.2.1 (by decide)

/-! ### Claim C2 -/

/-- The model map and the resident-model view of the process map are both
unchanged between two states. -/
def residencyUnchanged (s t : ManagerState) : Prop :=
  t.horde_model_map = s.horde_model_map ∧
  loadedProj t.process_map = loadedProj s.process_map

/-- Whether a message is a ModelStateChange reporting LOADED_IN_VRAM or
LOADED_IN_RAM. -/
def isLoadedModelMsg : HordeProcessMessage → Bool
  | .modelStateChange _ _ st =>
    st == ModelLoadState.LOADED_IN_VRAM || st == ModelLoadState.LOADED_IN_RAM
  | _ => false

/-- The residency effect `preload_models` is allowed to have: either nothing,
or marking one model LOADING owned by one process and setting that process's
resident model. -/
def preloadResidencyEffect (s t : ManagerState) : Prop :=
  t = s ∨ ∃ model pid,
    t = { s with
      horde_model_map :=
        update_model_entry s.horde_model_map model ModelLoadState.LOADING pid
      process_map := pmUpdate s.process_map pid none (some model) none none none }

/-- The spawn operations only append fresh entries with no resident model. -/
def appendsCleanProcesses (s t : ManagerState) : Prop :=
  t.horde_model_map = s.horde_model_map ∧
  ∃ extra, t.process_map = s.process_map ++ extra ∧
    ∀ p ∈ extra, p.loaded_horde_model_name = none

lemma loadedProj_pmUpdate_none (pm : ProcessMap) (pid : Nat)
    (ls : Option HordeProcessState) (r v t : Option Nat) :
    loadedProj (pmUpdate pm pid ls none r v t) = loadedProj pm := by
  unfold loadedProj pmUpdate
  induction pm with
  | nil => rfl
  | cons p rest ih =>
    simp only [List.map_cons, List.cons.injEq]
    exact ⟨by split <;> rfl, ih⟩

lemma handle_message_loadedProj (s : ManagerState) (m : HordeProcessMessage) :
    loadedProj (handle_message s m).1.process_map = loadedProj s.process_map ∨
    isLoadedModelMsg m = true := by
  cases m with
  | stateChange pid st info =>
    unfold handle_message
    dsimp only
    split
    · left; rfl
    · left; exact loadedProj_pmUpdate_none s.process_map pid (some st) none none none
  | modelStateChange pid name st =>
    unfold handle_message
    dsimp only
    split
    · left; rfl
    · split
      · next h => right; exact h
      · left; rfl
  | memory pid ram vram vtot =>
    unfold handle_message
    dsimp only
    split
    · left; rfl
    · left
      exact loadedProj_pmUpdate_none s.process_map pid none (some ram)
        (some vram) (some vtot)
  | inferenceResult pid job imgs st =>
    unfold handle_message
    dsimp only
    split
    · left; rfl
    · split
      · left; rfl
      · split
        · left; rfl
        · left; rfl
  | safetyResult pid jid evals =>
    unfold handle_message
    dsimp only
    split
    · left; rfl
    · split
      · left; rfl
      · split
        · left; rfl
        · split
          · left; rfl
          · left; rfl

/-- Counterexample to C2 as stated: `preload_models` (not the dispatcher)
writes both a model load state and a process's resident model. -/
theorem c2_only_writer_counterexample :
    (preload_models exState).1.horde_model_map ≠ exState.horde_model_map ∧
    loadedProj (preload_models exState).1.process_map
      ≠ loadedProj exState.process_map := by
  exact ⟨by decide, by decide⟩

/-- C2 amended: besides the dispatcher, `preload_models` writes model load
states and resident models (marking the preloaded model LOADING and setting
the chosen process's resident model), and `unload_from_ram` (also reached
through `unload_models`) writes the model map (ON_DISK) - though, contrary
to the spec, it does not clear the process's resident-model field, because
it passes `None` to `update_entry`, which means "leave unchanged".  All
remaining operations (start_inference, start_evaluate_safety,
api_submit_job, api_job_pop, api_get_user_info, end_inference_processes,
and the spawn operations, which only append fresh model-free entries) leave
every resident-model field and every model load state unchanged.  Within the
dispatcher, a resident-model field changes only on a ModelStateChange
message reporting LOADED_IN_RAM or LOADED_IN_VRAM. -/
theorem c2_residency_writers (s : ManagerState) (pid : Nat) (u : Option Nat)
    (o : SubmitOutcome) (now : Int) (po : PopOutcome) (uo : UserInfoOutcome)
    (m : HordeProcessMessage) :
    residencyUnchanged s (start_inference s).1 ∧
    residencyUnchanged s (start_evaluate_safety s).1 ∧
    residencyUnchanged s (api_submit_job s u o).1 ∧
    residencyUnchanged s (api_job_pop s now po).1 ∧
    residencyUnchanged s (api_get_user_info s uo) ∧
    residencyUnchanged s (end_inference_processes s).1 ∧
    loadedProj (unload_from_ram s pid).1.process_map
      = loadedProj s.process_map ∧
    loadedProj (unload_models s).1.process_map = loadedProj s.process_map ∧
    preloadResidencyEffect s (preload_models s).1 ∧
    appendsCleanProcesses s (start_safety_processes s).1 ∧
    appendsCleanProcesses s (start_inference_processes s).1 ∧
    (loadedProj (handle_message s m).1.process_map
        ≠ loadedProj s.process_map →
      isLoadedModelMsg m = true) := by
  refine ⟨?_, ?_, ?_, ?_, ?_, ?_, ?_, ?_, ?_, ?_, ?_, ?_⟩
  · rcases start_inference_spec s with h1 | ⟨j, h1, -⟩ <;> rw [h1] <;>
      exact ⟨rfl, rfl⟩
  · rcases start_evaluate_safety_effects s with h1 | ⟨c, r, -, h1⟩ <;>
      rw [h1] <;> exact ⟨rfl, rfl⟩
  · rcases api_submit_job_effects s u o with h1 | ⟨c, r, -, h1⟩ <;>
      rw [h1] <;> exact ⟨rfl, rfl⟩
  · obtain ⟨t, f, d, n, h1, -⟩ := api_job_pop_effects s now po
    rw [h1]; exact ⟨rfl, rfl⟩
  · obtain ⟨ui, fl, r, h1⟩ := api_get_user_info_effects s uo
    rw [h1]; exact ⟨rfl, rfl⟩
  · rw [end_inference_processes_id]; exact ⟨rfl, rfl⟩
  · obtain ⟨mm, h1⟩ := unload_from_ram_model_map_only s pid
    rw [h1]
  · obtain ⟨mm, h1⟩ := unload_models_effects s
    rw [h1]
  · unfold preload_models preloadResidencyEffect
    rcases preload_aux_effects s s.job_deque 0 with h1 | ⟨model, p2, h1⟩
    · left; exact h1
    · right; exact ⟨model, p2, h1⟩
  · obtain ⟨extra, h1, h2⟩ := start_safety_processes_effects s
    rw [h1]; exact ⟨rfl, extra, rfl, h2⟩
  · obtain ⟨extra, h1, h2⟩ := start_inference_processes_effects s
    rw [h1]; exact ⟨rfl, extra, rfl, h2⟩
  · intro hne
    rcases handle_message_loadedProj s m with h | h
    · exact absurd h hne
    · exact h

/-- Witness for C2 (amended): a LOADED_IN_VRAM model-state message does
change a resident-model field, and the implication identifies it as a
loaded-model message. -/
theorem c2_residency_writers_witness :
    isLoadedModelMsg
      (HordeProcessMessage.modelStateChange 0 "modelA"
        ModelLoadState.LOADED_IN_VRAM) = true :=
  (c2_residency_writers exState 0 none SubmitOutcome.exception 0
    PopOutcome.noJob UserInfoOutcome.requestError
    (HordeProcessMessage.modelStateChange 0 "modelA"
      ModelLoadState.LOADED_IN_VRAM)).2.2.2.2.2.2.2.2.2.2.2 (by decide)
